import Mathlib

/-!
Verification of the esbuild CSS-modules plugin (`src/lib/plugin.js`) against its
natural-language specification.  The JavaScript source is shallowly embedded:
pure computations become Lean functions, the build cache and filesystem become
explicit state, promise rejection becomes `Except`, and external collaborators
(the lightningcss transform, lodash case converters, node's crypto hash, the
nested esbuild invocation) become function parameters.
-/

set_option autoImplicit false

namespace CssModulesPlugin

/-! ### JavaScript runtime primitives used by the plugin -/

/-- Single-quote character, used when assembling the generated JavaScript text. -/
def sq : String := (Char.ofNat 39).toString

/-- Double-quote character, used when assembling the generated JavaScript text. -/
def dq : String := (Char.ofNat 34).toString

/-- Lookup in a JavaScript-object-like association list (first binding wins,
mirroring `obj[key]` on objects built with unique keys). -/
def assocLookup {α : Type} (k : String) : List (String × α) → Option α
  | [] => none
  | (a, b) :: rest => if a = k then some b else assocLookup k rest

/-- Clamp of one index argument of `String.prototype.slice`: a negative index
counts from the end of the string, and both ends are clamped into `[0, len]`. -/
def jsSliceClamp (len idx : Int) : Nat :=
  (if idx < 0 then max (len + idx) 0 else min idx len).toNat

/-- Embedding of JavaScript `s.slice(start, stop)`. -/
def jsSlice (s : String) (start stop : Int) : String :=
  String.mk ((s.toList.drop (jsSliceClamp (s.length : Int) start)).take
    (jsSliceClamp (s.length : Int) stop - jsSliceClamp (s.length : Int) start))

/-- Split a character list at every occurrence of a separator character (the
semantics of JavaScript `String.prototype.split` with a one-character
separator); the result is never empty. -/
def splitChar (sep : Char) : List Char → List (List Char)
  | [] => [[]]
  | c :: cs =>
    match splitChar sep cs with
    | [] => if c = sep then [[], []] else [[c]]
    | w :: ws => if c = sep then [] :: w :: ws else (c :: w) :: ws

/-- Embedding of node `path.basename` (posix): the last `/`-separated component. -/
def basename (p : String) : String :=
  String.mk (((splitChar (Char.ofNat 47) p.toList).getLast?).getD p.toList)

/-- Embedding of node `path.dirname` (posix). -/
def dirname (p : String) : String :=
  match (splitChar (Char.ofNat 47) p.toList).dropLast with
  | [] => "."
  | parts => String.intercalate "/" (parts.map String.mk)

/-- Embedding of node `path.extname` (posix): the final dot-suffix of the last
path component; a dot in the leading position starts no extension. -/
def extname (p : String) : String :=
  let base := (basename p).toList
  let tailPart := base.drop 1
  if tailPart.contains (Char.ofNat 46) then
    String.mk (Char.ofNat 46 :: (tailPart.reverse.takeWhile (fun c => c ≠ Char.ofNat 46)).reverse)
  else ""

/-- Embedding of node `path.isAbsolute` (posix). -/
def isAbsolutePath (p : String) : Bool :=
  match p.toList with
  | c :: _ => c = Char.ofNat 47
  | [] => false

/-- Embedding of `path.resolve(root, p)` as the plugin uses it: an already
absolute path is kept, otherwise it is joined onto the (absolute) root. -/
def resolvePath (root p : String) : String :=
  if isAbsolutePath p then p else root ++ "/" ++ p

/-! ### Virtual-module suffixes

Modelled from the spec: the suffix constants live in the repository's
`utils.js`, which is not under `src/`; the spec (section 6) and the comments in
`plugin.js` fix them as the query strings below. -/

/-- Modelled from the spec: suffix marking the "building" virtual module. -/
def buildingCssSuffix : String := "?esbuild-css-modules-plugin-building"

/-- Modelled from the spec: suffix marking the "built" virtual module. -/
def builtCssSuffix : String := "?esbuild-css-modules-plugin-built"

/-! ### Compiler adapter: `buildCssModulesJs` (plugin.js lines 30-138)

The lightningcss transform is external; its output (`code`, `exports`, `map`)
is a parameter.  The transform's export table is embedded as an association
list in the transform's own enumeration order, with unique keys (JavaScript
object keys are unique). -/

/-- Output of the external `cssHandler.transform` call (lightningcss): the
transformed CSS text, the original-to-scoped export table in the transform's
internal enumeration order, and the optional base64 source map. -/
structure TransformOutput where
  code : String
  exports : List (String × String)
  map : Option String
deriving Repr, DecidableEq

/-- Keys of the export table sorted lexicographically: embeds
`Object.keys(exports).sort()` (plugin.js line 60-61). -/
def sortedKeys (exports : List (String × String)) : List String :=
  List.insertionSort (· ≤ ·) (exports.map Prod.fst)

/-- Embedding of the `cssModulesJSON` accumulation (plugin.js lines 58-66):
iterate the sorted original identifiers and record each scoped name. -/
def cssModulesJSON (exports : List (String × String)) : List (String × String) :=
  (sortedKeys exports).filterMap (fun k => (assocLookup k exports).map (fun v => (k, v)))

/-- Embedding of plugin.js line 70: the default-export object is keyed by the
kebab-case form of each original identifier. -/
def defaultExportEntries (kebab : String → String) (json : List (String × String)) :
    List (String × String) :=
  json.map (fun p => (kebab p.1, p.2))

/-- One textual entry of the default-export object literal (plugin.js line 71):
keys containing a dash are single-quoted. -/
def classMapEntryString (p : String × String) : String :=
  (if p.1.toList.contains (Char.ofNat 45) then sq ++ p.1 ++ sq else p.1)
    ++ ": " ++ sq ++ p.2 ++ sq

/-- Embedding of `classNamesMapString` (plugin.js lines 68-72).  The entry array
is interpolated into a template literal, so JavaScript joins it with commas. -/
def classNamesMapString (kebab : String → String) (json : List (String × String)) : String :=
  "\x7b\n" ++ String.intercalate "," ((defaultExportEntries kebab json).map classMapEntryString)
    ++ "\n\x7d"

/-- Embedding of the synthetic import path (plugin.js lines 82-86). -/
def cssImportPath (fullPath : String) : String :=
  "./" ++ ((basename fullPath).trim.replace buildingCssSuffix "") ++ builtCssSuffix

/-- Embedding of `importStatement` (plugin.js line 87). -/
def importStatement (fullPath : String) : String :=
  "import " ++ dq ++ cssImportPath fullPath ++ dq ++ ";"

/-- Embedding of the lazy-injection default export (plugin.js lines 90-99). -/
def proxyExportStatement (cnms buildId : String) : String :=
  "\nexport default new Proxy(" ++ cnms ++ ", \x7b\n  get: function(source, key) \x7b\n"
    ++ "    setTimeout(() => \x7b\n      window.__inject_" ++ buildId
    ++ "__ && window.__inject_" ++ buildId
    ++ "__();\n    \x7d, 0);\n    return source[key];\n  \x7d\n\x7d);\n  "

/-- Embedding of `exportStatement` (plugin.js lines 89-100). -/
def exportStatement (inject : Bool) (cnms buildId : String) : String :=
  if inject then proxyExportStatement cnms buildId
  else "export default " ++ cnms ++ ";"

/-- Modelled from the spec: `validateNamedExport` lives in the repository's
`utils.js`, which is not under `src/`; per the spec (section 4.3) it checks that
a camelCase named export is not a reserved identifier of the target module
system (JavaScript). -/
def reservedWords : List String :=
  ["break", "case", "catch", "class", "const", "continue", "debugger", "default",
   "delete", "do", "else", "enum", "export", "extends", "false", "finally", "for",
   "function", "if", "import", "in", "instanceof", "new", "null", "return",
   "super", "switch", "this", "throw", "true", "try", "typeof", "var", "void",
   "while", "with", "yield", "let", "static", "await"]

/-- Modelled from the spec: a camelCase name is a valid named export iff it is
not a reserved JavaScript identifier. -/
def validateNamedExport (name : String) : Bool :=
  !(reservedWords.contains name)

/-- Error message raised on a reserved-identifier collision (plugin.js
lines 107-109). -/
def reservedErrorMessage (camelName fullPath : String) : String :=
  "the class name " ++ dq ++ camelName ++ dq ++ " in file " ++ fullPath
    ++ " is a reserved keyword in javascript, please change it to someother word to avoid potential errors"

/-- One named-export statement (plugin.js line 111), without the trailing
semicolon added at line 113. -/
def namedExportLine (camelName value : String) : String :=
  "export const " ++ camelName ++ " = " ++ dq ++ value ++ dq

/-- Embedding of the named-export loop (plugin.js lines 103-115): each entry's
camelCase name is validated in order; the first reserved identifier aborts the
whole compilation with a thrown error. -/
def namedExportLines (camel : String → String) (fullPath : String) :
    List (String × String) → Except String (List String)
  | [] => Except.ok []
  | (n, v) :: rest =>
    let c := camel n
    if validateNamedExport c then
      (namedExportLines camel fullPath rest).map (fun ls => (namedExportLine c v ++ ";") :: ls)
    else Except.error (reservedErrorMessage c fullPath)

/-- Embedding of the inline source-map append (plugin.js lines 74-79); the map
parameter is already base64 text. -/
def cssWithSourceMap (code : String) (map : Option String) : String :=
  match map with
  | some m => code ++ "\n/*# sourceMappingURL=data:application/json;base64," ++ m ++ " */"
  | none => code

/-- Result record of `buildCssModulesJs` (plugin.js lines 131-137). -/
structure CssModulesJsResult where
  js : String
  css : String
  originCss : String
  exportsOut : List (String × String)
  resolveDir : String
deriving Repr, DecidableEq

/-- Embedding of `buildCssModulesJs` (plugin.js lines 30-138).  The lodash case
converters `kebab` and `camel` and the transform output `t` are external
collaborators passed as parameters; `originCss` is the raw file content read
from disk.  A reserved-identifier collision rejects the whole computation. -/
def buildCssModulesJs (kebab camel : String → String) (inject : Bool)
    (fullPath buildId originCss : String) (t : TransformOutput) :
    Except String CssModulesJsResult :=
  let json := cssModulesJSON t.exports
  let cnms := classNamesMapString kebab json
  (namedExportLines camel fullPath json).map (fun ls =>
    { js := importStatement fullPath ++ "\n" ++ exportStatement inject cnms buildId
        ++ ";\n" ++ String.intercalate "\n" ls
      css := cssWithSourceMap t.code t.map
      originCss := originCss
      exportsOut := t.exports
      resolveDir := dirname fullPath })

/-- Concrete instance of the external lodash `kebabCase` collaborator on simple
ASCII camelCase identifiers, for instantiating the parameterized theorems. -/
def kebabCaseAscii (s : String) : String :=
  String.mk (s.toList.foldr
    (fun c acc => if c.isUpper then Char.ofNat 45 :: c.toLower :: acc else c :: acc) [])

/-- Uppercase the first character of a word. -/
def capitalizeWord (w : String) : String :=
  match w.toList with
  | [] => ""
  | c :: cs => String.mk (c.toUpper :: cs)

/-- Concrete instance of the external lodash `camelCase` collaborator on simple
ASCII dash-separated identifiers, for instantiating the parameterized theorems. -/
def camelCaseAscii (s : String) : String :=
  match splitChar (Char.ofNat 45) s.toList with
  | [] => ""
  | w :: ws => String.mk w ++ String.join (ws.map (fun cs => capitalizeWord (String.mk cs)))

/-! ### Build cache and the "building" loader (plugin.js lines 211-259)

The cache implementation (`cache.js`) is not under `src/`, so its `get`/`set`
operations are modelled from the spec; the loader's decision logic around them
is embedded from `plugin.js` itself. -/

/-- Load result assembled by `onLoadModulesCss` (plugin.js lines 240-251): the
generated JS text plus the data carried forward in `pluginData`. -/
structure LoadResult where
  contents : String
  css : String
  exportsOut : List (String × String)
  digest : String
deriving Repr, DecidableEq

/-- Modelled from the spec: the Build Cache (`cache.js`, not under `src/`) maps
an absolute source path to a previously computed load result together with the
content digest it was computed from (spec section 3, CacheEntry). -/
abbrev CacheMap := List (String × LoadResult × String)

/-- Modelled from the spec: `cache.get` returns the stored result for an
absolute path only while the source file's current content digest is unchanged
(spec: "an entry is valid only while the source file's content digest is
unchanged").  `hash` is the content-digest function, `fs` the file contents. -/
def cacheGet (hash : String → String) (fs : String → String) (c : CacheMap)
    (absPath : String) : Option LoadResult :=
  match assocLookup absPath c with
  | some (res, dg) => if hash (fs absPath) = dg then some res else none
  | none => none

/-- Modelled from the spec: `cache.set(absPath, result, originCss)` stores the
fresh load result keyed by absolute path together with the digest of the source
content it was built from. -/
def cacheSet (hash : String → String) (c : CacheMap) (absPath : String)
    (res : LoadResult) (originCss : String) : CacheMap :=
  (absPath, res, hash originCss) :: c

/-- Embedding of `build.initialOptions.watch ?? options.watch ?? false`
(plugin.js line 221): JavaScript nullish coalescing on two optional flags. -/
def useCache (initialWatch optionsWatch : Option Bool) : Bool :=
  initialWatch.getD (optionsWatch.getD false)

/-- Embedding of the digest computation (plugin.js lines 230-231): the hex
SHA-256 of the build-root-relative path, passed through
`hex.slice(hex.length - 255, hex.length)`. -/
def loadDigest (sha256hex : String → String) (rpath : String) : String :=
  jsSlice (sha256hex rpath) (((sha256hex rpath).length : Int) - 255)
    ((sha256hex rpath).length : Int)

/-- Outcome of one `onLoadModulesCss` invocation: the load result (or the
propagated compile error), the cache state afterwards, and how many times the
compiler adapter was invoked. -/
structure LoadOutcome where
  result : Except String LoadResult
  cache : CacheMap
  compilerCalls : Nat
deriving Repr

/-- Embedding of `onLoadModulesCss` (plugin.js lines 211-259).  `sha256hex` is
node's crypto hash, `hash` the cache's content-digest function, `compile` the
compiler adapter (`buildCssModulesJs`, taking the path and the file content),
`uc` the computed watch/cache flag, and `fs` the file contents by path.  The
cache is probed only when `uc` is set; on a hit the cached result is returned
with no compiler call; otherwise the adapter runs, and the fresh result is
stored only when `uc` is set.  A compile error propagates and stores nothing. -/
def onLoadModulesCss (sha256hex hash : String → String)
    (compile : String → String → Except String CssModulesJsResult)
    (uc : Bool) (fs : String → String) (cache : CacheMap)
    (absPath rpath : String) : LoadOutcome :=
  match (if uc then cacheGet hash fs cache absPath else none) with
  | some cached => { result := Except.ok cached, cache := cache, compilerCalls := 0 }
  | none =>
    let digest := loadDigest sha256hex rpath
    match compile absPath (fs absPath) with
    | Except.error e => { result := Except.error e, cache := cache, compilerCalls := 1 }
    | Except.ok out =>
      let res : LoadResult :=
        { contents := out.js, css := out.css, exportsOut := out.exportsOut, digest := digest }
      { result := Except.ok res
        cache := if uc then cacheSet hash cache absPath res (fs absPath) else cache
        compilerCalls := 1 }

/-! ### Build preparation (plugin.js lines 146-166) -/

/-- Host build options the plugin reads or writes (a projection of esbuild's
`initialOptions` onto the fields `plugin.js` touches or forwards). -/
structure InitialOptions where
  metafile : Bool
  watch : Option Bool
  outdir : String
  entryPoints : List String
  sourcemap : Option String
  sourceRoot : Option String
  sourcesContent : Option Bool
  minify : Bool
  format : Option String
  target : Option String
  external : List String
  publicPath : Option String
  charset : Option String
  logLevel : Option String
deriving Repr, DecidableEq

/-- Per-build context attached by `prepareBuild` (plugin.js lines 155-163). -/
structure BuildContextState where
  buildId : String
  buildRoot : String
  packageRoot : Option String
  packageVersion : Option String
  cache : CacheMap
deriving Repr, DecidableEq

/-- Host build object as the plugin sees it: the initial options plus the
attached per-build context. -/
structure Build where
  initialOptions : InitialOptions
  context : Option BuildContextState
deriving Repr, DecidableEq

/-- Embedding of `prepareBuild` (plugin.js lines 146-166).  The helpers
`getBuildId`, `getRootDir` and `getPackageVersion` live in `utils.js` (not
under `src/`), so their values are taken as inputs; `root` is `options.root`.
The body sets `initialOptions.metafile` to `true` and attaches a fresh context
with an empty cache. -/
def prepareBuild (buildId buildRoot : String) (packageVersion : Option String)
    (root : Option String) (b : Build) : Build :=
  { initialOptions := { b.initialOptions with metafile := true }
    context := some
      { buildId := buildId
        buildRoot := buildRoot
        packageRoot := root
        packageVersion := packageVersion
        cache := [] } }

/-! ### Injection synthesizer: `onEnd` (plugin.js lines 321-448) -/

/-- One record of the build's output manifest (`result.metafile.outputs`): the
output file path (as keyed in the manifest), its originating entry point if
any, and its on-disk content. -/
structure OutputInfo where
  file : String
  entryPoint : Option String
  content : String
deriving Repr, DecidableEq

/-- Inputs of the `onEnd` step: whether injection mode is on (truthy
`options.inject`), the optional container selector (when `options.inject` is a
string), the build root, the entry points the user requested (array form,
string entries), and the output manifest. -/
structure OnEndInput where
  injectEnabled : Bool
  injectContainer : Option String
  buildRoot : String
  entryPoints : List String
  outputs : List OutputInfo
deriving Repr, DecidableEq

/-- Embedding of the entry normalization (plugin.js lines 401-411): each
requested entry point resolved against the build root. -/
def resolvedEntries (i : OnEndInput) : List String :=
  i.entryPoints.map (fun p => resolvePath i.buildRoot p)

/-- Output extensions accepted for the entry to inject into (plugin.js
line 424). -/
def jsExtensions : List String := [".js", ".mjs", ".cjs"]

/-- Embedding of the `entryToInject` selection (plugin.js lines 415-427): the
first output that has an entry point among the requested entries and a JS-like
extension.  (The `!entryToInject &&` guard inside the concurrent loop makes the
first matching output in manifest order win.) -/
def entryToInject (i : OnEndInput) : Option OutputInfo :=
  i.outputs.find? (fun f =>
    (match f.entryPoint with
     | some ep => (resolvedEntries i).contains (resolvePath i.buildRoot ep)
     | none => false)
    && jsExtensions.contains (extname f.file))

/-- The CSS-kind outputs of the manifest (plugin.js line 428), in manifest
iteration order. -/
def cssOutputs (i : OnEndInput) : List OutputInfo :=
  i.outputs.filter (fun f => extname f.file = ".css")

/-- Embedding of the CSS collection (plugin.js lines 428-433): each CSS output
is read back and re-minified through the host's `transform`, in manifest
iteration order. -/
def cssContentsOf (transform : String → String) (i : OnEndInput) : List String :=
  (cssOutputs i).map (fun f => transform f.content)

/-- One performed injection: the absolute path of the rewritten entry output
and the concatenated CSS appended to it. -/
structure Injection where
  target : String
  css : String
deriving Repr, DecidableEq

/-- Embedding of the injection decision (plugin.js lines 437-444): only with
injection mode on, and only if both a matched entry and at least one CSS blob
exist, is the single matched entry rewritten with the `\n`-joined concatenation
of all collected CSS. -/
def onEndInjections (transform : String → String) (i : OnEndInput) : List Injection :=
  if i.injectEnabled then
    match entryToInject i with
    | some e =>
      let contents := cssContentsOf transform i
      if contents.isEmpty then []
      else [{ target := resolvePath i.buildRoot e.file
              css := String.intercalate "\n" contents }]
    | none => []
  else []

/-! ### The nested rebuild: `buildJs` (plugin.js lines 356-397) -/

/-- Path of the temporary synthetic entry file (plugin.js line 373). -/
def tmpJsPath (absOutdir : String) : String := absOutdir ++ "/.build.inject.js"

/-- Embedding of `buildJs` (plugin.js lines 356-397) as a transition on the set
of files present on disk.  The nested `esbuild.build` invocation is external;
its outcome is the parameter `nested`.  The body writes the temporary synthetic
entry, awaits the nested build, and unlinks the temporary file afterwards; a
rejected nested build propagates before the `unlink` line is reached. -/
def buildJs (nested : Except String Unit) (absOutdir : String) (fs : List String) :
    Except String Unit × List String :=
  let fs1 := tmpJsPath absOutdir :: fs
  match nested with
  | Except.error e => (Except.error e, fs1)
  | Except.ok _ => (Except.ok (), fs1.erase (tmpJsPath absOutdir))

/-- Outcome of the whole `onEnd` body: it awaits `buildJs` exactly when an
injection is performed, so a nested-rebuild failure rejects the promise
returned by `onEnd`. -/
def onEndRun (transform : String → String) (nested : Except String Unit)
    (absOutdir : String) (i : OnEndInput) (fs : List String) :
    Except String Unit × List String :=
  match onEndInjections transform i with
  | [] => (Except.ok (), fs)
  | _ :: _ => buildJs nested absOutdir fs

/-- Embedding of the handler registered in `setup` (plugin.js lines 493-495):
`build.onEnd(async (result) => \x7b onEnd(build, options, result); \x7d)` calls
`onEnd` without awaiting the returned promise, so the handler itself always
fulfills, whatever `onEnd` did. -/
def registeredOnEnd (transform : String → String) (nested : Except String Unit)
    (absOutdir : String) (i : OnEndInput) (fs : List String) : Except String Unit :=
  let _ := onEndRun transform nested absOutdir i fs
  Except.ok ()

/-! ### Concrete sample builds used to instantiate the theorems -/

/-- Sample injection-mode build with two entry points, each importing a distinct
stylesheet: `src/a.js` imports the stylesheet bundled into `out/a.css`, and
`src/b.js` the one bundled into `out/b.css`. -/
def sampleTwoEntryInput : OnEndInput :=
  { injectEnabled := true
    injectContainer := none
    buildRoot := "/proj"
    entryPoints := ["src/a.js", "src/b.js"]
    outputs :=
      [ { file := "out/a.js", entryPoint := some "src/a.js", content := "js-a" }
      , { file := "out/a.css", entryPoint := none, content := "css-of-a" }
      , { file := "out/b.js", entryPoint := some "src/b.js", content := "js-b" }
      , { file := "out/b.css", entryPoint := none, content := "css-of-b" } ] }

/-- A sample 64-character hex string, the length of a SHA-256 hex digest. -/
def sampleHex64 : String :=
  "0123456789abcdef0123456789abcdef0123456789abcdef0123456789abcdef"

/-- A sample hash collaborator standing in for SHA-256 in witnesses. -/
def sampleSha : String → String := fun _ => sampleHex64

/-- A sample content-digest function for the cache in witnesses: the identity,
so digests coincide with contents. -/
def idHash : String → String := fun s => s

/-- A sample compiler adapter for witnesses: succeeds, echoing the file
content into the generated module. -/
def sampleCompile : String → String → Except String CssModulesJsResult :=
  fun _ content => Except.ok
    { js := content, css := "css", originCss := content, exportsOut := [], resolveDir := "." }

/-- Sample filesystem under which every file holds "contentA". -/
def fsA : String → String := fun _ => "contentA"

/-- Sample filesystem under which every file holds "contentB". -/
def fsB : String → String := fun _ => "contentB"

/-- Sample filesystem under which every file holds "contentC". -/
def fsC : String → String := fun _ => "contentC"

/-! ### Helper lemmas -/

theorem assocLookup_mem_of_eq_some {α : Type} {k : String} {v : α} :
    ∀ {l : List (String × α)}, assocLookup k l = some v → (k, v) ∈ l := by
  intro l
  induction l with
  | nil => intro h; cases h
  | cons hd tl ih =>
    intro h
    by_cases hk : hd.1 = k
    · obtain ⟨a, b⟩ := hd
      simp only [assocLookup, if_pos hk] at h
      cases hk
      cases h
      exact List.mem_cons_self _ _
    · obtain ⟨a, b⟩ := hd
      simp only [assocLookup, if_neg hk] at h
      exact List.mem_cons_of_mem _ (ih h)

theorem assocLookup_eq_some_of_mem {α : Type} {k : String} {v : α} :
    ∀ {l : List (String × α)}, (l.map Prod.fst).Nodup → (k, v) ∈ l →
      assocLookup k l = some v := by
  intro l
  induction l with
  | nil => intro _ h; cases h
  | cons hd tl ih =>
    intro hnd hmem
    obtain ⟨a, b⟩ := hd
    rcases List.mem_cons.mp hmem with heq | hmem'
    · cases heq
      simp [assocLookup]
    · have hk : ¬ (a = k) := by
        intro hak
        subst hak
        exact (List.nodup_cons.mp hnd).1 (List.mem_map.mpr ⟨(a, v), hmem', rfl⟩)
      simp only [assocLookup, if_neg hk]
      exact ih (List.nodup_cons.mp hnd).2 hmem'

theorem assocLookup_eq_none_of_not_mem {α : Type} {k : String} :
    ∀ {l : List (String × α)}, k ∉ l.map Prod.fst → assocLookup k l = none := by
  intro l
  induction l with
  | nil => intro _; rfl
  | cons hd tl ih =>
    intro h
    obtain ⟨a, b⟩ := hd
    simp only [List.map_cons, List.mem_cons] at h
    push_neg at h
    have hak : ¬ (a = k) := fun hh => h.1 hh.symm
    simp only [assocLookup, if_neg hak]
    exact ih h.2

theorem assocLookup_perm {α : Type} {l₁ l₂ : List (String × α)} (hperm : l₁.Perm l₂)
    (hnd : (l₁.map Prod.fst).Nodup) (k : String) :
    assocLookup k l₁ = assocLookup k l₂ := by
  have hnd₂ : (l₂.map Prod.fst).Nodup := ((hperm.map Prod.fst).nodup_iff).mp hnd
  cases h : assocLookup k l₁ with
  | some v =>
    exact (assocLookup_eq_some_of_mem hnd₂ (hperm.mem_iff.mp (assocLookup_mem_of_eq_some h))).symm
  | none =>
    have hk : k ∉ l₁.map Prod.fst := by
      intro hmem
      obtain ⟨⟨a, b⟩, hab, hfst⟩ := List.mem_map.mp hmem
      cases hfst
      rw [assocLookup_eq_some_of_mem hnd hab] at h
      cases h
    exact (assocLookup_eq_none_of_not_mem (fun hmem =>
      hk ((hperm.map Prod.fst).mem_iff.mpr hmem))).symm

theorem sortedKeys_perm {l₁ l₂ : List (String × String)} (hperm : l₁.Perm l₂) :
    sortedKeys l₁ = sortedKeys l₂ :=
  List.eq_of_perm_of_sorted
    ((List.perm_insertionSort _ _).trans ((hperm.map Prod.fst).trans
      (List.perm_insertionSort _ _).symm))
    (List.sorted_insertionSort _ _) (List.sorted_insertionSort _ _)

theorem cssModulesJSON_perm {l₁ l₂ : List (String × String)} (hperm : l₁.Perm l₂)
    (hnd : (l₁.map Prod.fst).Nodup) :
    cssModulesJSON l₁ = cssModulesJSON l₂ := by
  unfold cssModulesJSON
  rw [sortedKeys_perm hperm]
  have hfun : (fun k => (assocLookup k l₁).map (fun v => (k, v)))
      = (fun k => (assocLookup k l₂).map (fun v => (k, v))) :=
    funext fun k => by rw [assocLookup_perm hperm hnd k]
  rw [hfun]

theorem namedExportLines_error_of_mem_reserved (camel : String → String) (fullPath : String)
    {json : List (String × String)} {n v : String} (hmem : (n, v) ∈ json)
    (hres : validateNamedExport (camel n) = false) :
    ∃ c, validateNamedExport c = false ∧
      namedExportLines camel fullPath json = Except.error (reservedErrorMessage c fullPath) := by
  induction json with
  | nil => cases hmem
  | cons hd tl ih =>
    obtain ⟨a, b⟩ := hd
    by_cases hv : validateNamedExport (camel a) = true
    · have hmem' : (n, v) ∈ tl := by
        rcases List.mem_cons.mp hmem with heq | h
        · cases heq; rw [hv] at hres; cases hres
        · exact h
      obtain ⟨c, hc, heq⟩ := ih hmem'
      exact ⟨c, hc, by simp [namedExportLines, hv, heq, Except.map]⟩
    · have hv' : validateNamedExport (camel a) = false := by
        cases h' : validateNamedExport (camel a)
        · rfl
        · exact absurd h' hv
      exact ⟨camel a, hv', by simp [namedExportLines, hv']⟩

theorem reservedErrorMessage_names_file (c p : String) :
    ∃ a b, reservedErrorMessage c p = a ++ p ++ b :=
  ⟨"the class name " ++ dq ++ c ++ dq ++ " in file ",
   " is a reserved keyword in javascript, please change it to someother word to avoid potential errors",
   by simp [reservedErrorMessage, String.append_assoc]⟩

theorem namedExportLines_mem (camel : String → String) (fullPath : String)
    {json : List (String × String)} {n v : String} (hmem : (n, v) ∈ json) :
    ∀ {ls : List String}, namedExportLines camel fullPath json = Except.ok ls →
      (namedExportLine (camel n) v ++ ";") ∈ ls := by
  induction json with
  | nil => cases hmem
  | cons hd tl ih =>
    intro ls hok
    obtain ⟨a, b⟩ := hd
    by_cases hv : validateNamedExport (camel a) = true
    · cases h' : namedExportLines camel fullPath tl with
      | error e =>
        rw [namedExportLines] at hok
        simp [hv, h', Except.map] at hok
      | ok ls' =>
        have hls : ls = (namedExportLine (camel a) b ++ ";") :: ls' := by
          rw [namedExportLines] at hok
          simp [hv, h', Except.map] at hok
          exact hok.symm
        subst hls
        rcases List.mem_cons.mp hmem with heq | hmem'
        · cases heq; exact List.mem_cons_self _ _
        · exact List.mem_cons_of_mem _ (ih hmem' h')
    · exfalso
      have hv' : validateNamedExport (camel a) = false := by
        cases h' : validateNamedExport (camel a)
        · rfl
        · exact absurd h' hv
      rw [namedExportLines] at hok
      simp [hv', Except.map] at hok

theorem jsSliceClamp_self (n : Nat) : jsSliceClamp (n : Int) (n : Int) = n := by
  unfold jsSliceClamp
  rw [if_neg (by omega), min_self]
  simp

theorem jsSlice_to_end_suffix (s : String) (start : Int) :
    (jsSlice s start (s.length : Int)).toList <:+ s.toList := by
  unfold jsSlice
  rw [jsSliceClamp_self]
  have hlen : s.toList.length = s.length := rfl
  have htake : (s.toList.drop (jsSliceClamp (s.length : Int) start)).take
      (s.length - jsSliceClamp (s.length : Int) start)
      = s.toList.drop (jsSliceClamp (s.length : Int) start) := by
    apply List.take_of_length_le
    rw [List.length_drop, hlen]
  rw [htake]
  exact List.drop_suffix _ _

theorem loadDigest_suffix (f : String → String) (rpath : String) :
    (loadDigest f rpath).toList <:+ (f rpath).toList := by
  unfold loadDigest
  exact jsSlice_to_end_suffix (f rpath) _

theorem jsSlice_all_of_short (s : String) (h2 : 2 * s.length ≤ 255) :
    jsSlice s ((s.length : Int) - 255) (s.length : Int) = s := by
  unfold jsSlice
  have ha : jsSliceClamp (s.length : Int) ((s.length : Int) - 255) = 0 := by
    unfold jsSliceClamp
    rw [if_pos (by omega)]
    rw [max_eq_right (by omega : (s.length : Int) + ((s.length : Int) - 255) ≤ 0)]
    rfl
  rw [ha, jsSliceClamp_self]
  simp only [List.drop_zero, Nat.sub_zero]
  have hlen : s.toList.length = s.length := rfl
  rw [List.take_of_length_le (le_of_eq hlen)]
  rfl

theorem loadDigest_of_length_64 (f : String → String) (rpath : String)
    (hlen : (f rpath).length = 64) : loadDigest f rpath = f rpath := by
  unfold loadDigest
  exact jsSlice_all_of_short (f rpath) (by rw [hlen]; norm_num)

theorem onEndInjections_cases (transform : String → String) (i : OnEndInput) :
    onEndInjections transform i = [] ∨
    ∃ e, entryToInject i = some e ∧
      onEndInjections transform i
        = [{ target := resolvePath i.buildRoot e.file
             css := String.intercalate "\n" (cssContentsOf transform i) }] := by
  unfold onEndInjections
  cases hinj : i.injectEnabled with
  | false => left; rfl
  | true =>
    simp only [if_true]
    cases he : entryToInject i with
    | none => left; rfl
    | some e =>
      by_cases hempty : (cssContentsOf transform i).isEmpty
      · left; simp only [hempty, if_true]
      · right
        exact ⟨e, rfl, by simp [hempty]⟩

/-! ### Claim theorems -/

/-- C9: for every build the plugin attaches to, `prepareBuild` unconditionally
sets the host build's `initialOptions.metafile` to `true` (overriding any
user-configured value) and modifies no other field of `initialOptions`. -/
theorem prepareBuild_sets_metafile_only (buildId buildRoot : String)
    (packageVersion root : Option String) (b : Build) :
    (prepareBuild buildId buildRoot packageVersion root b).initialOptions.metafile = true ∧
    (prepareBuild buildId buildRoot packageVersion root b).initialOptions
      = { b.initialOptions with metafile := true } ∧
    (prepareBuild buildId buildRoot packageVersion root b).initialOptions.watch
      = b.initialOptions.watch ∧
    (prepareBuild buildId buildRoot packageVersion root b).initialOptions.outdir
      = b.initialOptions.outdir ∧
    (prepareBuild buildId buildRoot packageVersion root b).initialOptions.entryPoints
      = b.initialOptions.entryPoints ∧
    (prepareBuild buildId buildRoot packageVersion root b).initialOptions.sourcemap
      = b.initialOptions.sourcemap ∧
    (prepareBuild buildId buildRoot packageVersion root b).initialOptions.sourceRoot
      = b.initialOptions.sourceRoot ∧
    (prepareBuild buildId buildRoot packageVersion root b).initialOptions.sourcesContent
      = b.initialOptions.sourcesContent ∧
    (prepareBuild buildId buildRoot packageVersion root b).initialOptions.minify
      = b.initialOptions.minify ∧
    (prepareBuild buildId buildRoot packageVersion root b).initialOptions.format
      = b.initialOptions.format ∧
    (prepareBuild buildId buildRoot packageVersion root b).initialOptions.target
      = b.initialOptions.target ∧
    (prepareBuild buildId buildRoot packageVersion root b).initialOptions.external
      = b.initialOptions.external ∧
    (prepareBuild buildId buildRoot packageVersion root b).initialOptions.publicPath
      = b.initialOptions.publicPath ∧
    (prepareBuild buildId buildRoot packageVersion root b).initialOptions.charset
      = b.initialOptions.charset ∧
    (prepareBuild buildId buildRoot packageVersion root b).initialOptions.logLevel
      = b.initialOptions.logLevel :=
  ⟨rfl, rfl, rfl, rfl, rfl, rfl, rfl, rfl, rfl, rfl, rfl, rfl, rfl, rfl, rfl⟩

/-- C8 counterexample: on a failing nested rebuild, `buildJs` does not remove
the temporary synthetic entry file — it is still on disk afterwards, so the
claim that the temporary file is always removed on both paths is false. -/
theorem buildJs_tmp_file_left_on_failure :
    (buildJs (Except.error "nested build failed") "/proj/out" []).2
      = ["/proj/out/.build.inject.js"] ∧
    (buildJs (Except.error "nested build failed") "/proj/out" []).1
      = Except.error "nested build failed" :=
  ⟨rfl, rfl⟩

/-- C8 (amended): the temporary synthetic entry file written by `buildJs` is
removed on the success path of the nested rebuild, but on a failing nested
rebuild the `unlink` line is never reached and the file is left behind. -/
theorem buildJs_tmp_cleanup (absOutdir : String) (fs fs2 : List String) (e : String) :
    (buildJs (Except.ok ()) absOutdir fs).2 = fs ∧
    (buildJs (Except.error e) absOutdir fs2).2 = tmpJsPath absOutdir :: fs2 := by
  constructor
  · simp [buildJs]
  · rfl

/-- C3: on the sample injection-mode build, a failure of the nested rebuild
rejects the promise returned by `onEnd` itself, but the handler registered via
`build.onEnd` invokes `onEnd` without awaiting it, so the handler fulfills and
the parent build is not marked failed — contradicting the claim. -/
theorem onEnd_nested_failure_swallowed :
    (onEndRun (fun s => s) (Except.error "nested build failed") "/proj/out"
      sampleTwoEntryInput []).1 = Except.error "nested build failed" ∧
    registeredOnEnd (fun s => s) (Except.error "nested build failed") "/proj/out"
      sampleTwoEntryInput [] = Except.ok () :=
  ⟨rfl, rfl⟩

/-- C2 counterexample: in the sample build with two entry points, each
importing a distinct stylesheet, only the first matched entry output
(`out/a.js`) is rewritten — and with the concatenation of BOTH stylesheets —
while the second entry (`out/b.js`), which also has a CSS import, receives
nothing; so "exactly one CSS blob is appended per entry that has a CSS import"
is false. -/
theorem onEnd_injection_counterexample :
    onEndInjections (fun s => s) sampleTwoEntryInput
      = [{ target := "/proj/out/a.js", css := "css-of-a\ncss-of-b" }] ∧
    ¬ ("/proj/out/b.js" ∈ (onEndInjections (fun s => s) sampleTwoEntryInput).map
        Injection.target) := by
  constructor
  · rfl
  · decide

/-- C2 (amended): with injection enabled, at most one entry output per build is
rewritten; any performed injection targets the first JS-kind output whose entry
point is among the requested entries, and appends the single concatenation of
all CSS outputs of the build, so at most one injected CSS bundle is appended
per entry point per build. -/
theorem onEnd_injects_at_most_one_entry (transform : String → String) (i : OnEndInput)
    (inj : Injection) (hmem : inj ∈ onEndInjections transform i) :
    (onEndInjections transform i).length ≤ 1 ∧
    ∃ e, entryToInject i = some e ∧ inj.target = resolvePath i.buildRoot e.file ∧
      inj.css = String.intercalate "\n" (cssContentsOf transform i) := by
  rcases onEndInjections_cases transform i with hnil | ⟨e, he, heq⟩
  · rw [hnil] at hmem; cases hmem
  · rw [heq] at hmem ⊢
    rcases List.mem_singleton.mp hmem with rfl
    exact ⟨by simp, e, he, rfl, rfl⟩

/-- C2 witness: the amended theorem applied to the sample build. -/
theorem onEnd_injects_at_most_one_entry_witness :
    ({ target := "/proj/out/a.js", css := "css-of-a\ncss-of-b" } : Injection) ∈
        onEndInjections (fun s => s) sampleTwoEntryInput ∧
    ((onEndInjections (fun s => s) sampleTwoEntryInput).length ≤ 1 ∧
      ∃ e, entryToInject sampleTwoEntryInput = some e ∧
        ({ target := "/proj/out/a.js", css := "css-of-a\ncss-of-b" } : Injection).target
          = resolvePath sampleTwoEntryInput.buildRoot e.file ∧
        ({ target := "/proj/out/a.js", css := "css-of-a\ncss-of-b" } : Injection).css
          = String.intercalate "\n" (cssContentsOf (fun s => s) sampleTwoEntryInput)) :=
  ⟨by decide,
   onEnd_injects_at_most_one_entry (fun s => s) sampleTwoEntryInput _ (by decide)⟩

/-- C10: if the compiler adapter fails during a load (and the compiler is
actually reached: caching off, or no valid cache entry), the load fails with
that error and the Build Cache is left unchanged — no entry is added or
overwritten for that absolute path. -/
theorem onLoad_compile_error_cache_unchanged (sha256hex hash : String → String)
    (compile : String → String → Except String CssModulesJsResult)
    (uc : Bool) (fs : String → String) (cache : CacheMap) (absPath rpath e : String)
    (hnohit : uc = false ∨ cacheGet hash fs cache absPath = none)
    (herr : compile absPath (fs absPath) = Except.error e) :
    (onLoadModulesCss sha256hex hash compile uc fs cache absPath rpath).result
      = Except.error e ∧
    (onLoadModulesCss sha256hex hash compile uc fs cache absPath rpath).cache = cache := by
  rcases hnohit with h | h
  · subst h
    simp [onLoadModulesCss, herr]
  · cases uc <;> simp [onLoadModulesCss, h, herr]

/-- C10 witness: a concrete failing compile with caching off leaves the (here
empty) cache untouched and fails the load. -/
theorem onLoad_compile_error_cache_unchanged_witness :
    (onLoadModulesCss (fun s => s) (fun s => s) (fun _ _ => Except.error "bad css") false
        (fun _ => "body") [] "/proj/a.module.css" "a.module.css").result
      = Except.error "bad css" ∧
    (onLoadModulesCss (fun s => s) (fun s => s) (fun _ _ => Except.error "bad css") false
        (fun _ => "body") [] "/proj/a.module.css" "a.module.css").cache = [] :=
  onLoad_compile_error_cache_unchanged (fun s => s) (fun s => s)
    (fun _ _ => Except.error "bad css") false (fun _ => "body") [] "/proj/a.module.css"
    "a.module.css" "bad css" (Or.inl rfl) rfl

/-- C4: for every stylesheet whose compiled class map contains a class whose
camelCase form is a reserved identifier, `buildCssModulesJs` fails with an
error message naming the source file path; it never succeeds, so the invalid
named export is never emitted. -/
theorem buildCssModulesJs_reserved_name_fails (kebab camel : String → String) (inject : Bool)
    (fullPath buildId originCss : String) (t : TransformOutput) (n v : String)
    (hmem : (n, v) ∈ cssModulesJSON t.exports)
    (hres : validateNamedExport (camel n) = false) :
    ∃ msg, buildCssModulesJs kebab camel inject fullPath buildId originCss t
        = Except.error msg ∧
      (∃ a b, msg = a ++ fullPath ++ b) ∧
      ∀ r, buildCssModulesJs kebab camel inject fullPath buildId originCss t
        ≠ Except.ok r := by
  obtain ⟨c, hc, heq⟩ := namedExportLines_error_of_mem_reserved camel fullPath hmem hres
  refine ⟨reservedErrorMessage c fullPath, ?_, reservedErrorMessage_names_file c fullPath, ?_⟩
  · simp [buildCssModulesJs, heq, Except.map]
  · intro r
    simp [buildCssModulesJs, heq, Except.map]

/-- C4 witness: a stylesheet with the single class `class`, whose camelCase
form is the reserved word `class`, makes compilation fail with an error naming
the file. -/
theorem buildCssModulesJs_reserved_name_fails_witness :
    ("class", "button__class_1") ∈ cssModulesJSON [("class", "button__class_1")] ∧
    validateNamedExport (camelCaseAscii "class") = false ∧
    ∃ msg, buildCssModulesJs kebabCaseAscii camelCaseAscii false "/proj/src/button.module.css"
        "buildid" "origin"
        { code := "code", exports := [("class", "button__class_1")], map := none }
        = Except.error msg ∧
      (∃ a b, msg = a ++ "/proj/src/button.module.css" ++ b) ∧
      ∀ r, buildCssModulesJs kebabCaseAscii camelCaseAscii false "/proj/src/button.module.css"
        "buildid" "origin"
        { code := "code", exports := [("class", "button__class_1")], map := none }
        ≠ Except.ok r :=
  ⟨by decide, by decide,
   buildCssModulesJs_reserved_name_fails kebabCaseAscii camelCaseAscii false
     "/proj/src/button.module.css" "buildid" "origin"
     { code := "code", exports := [("class", "button__class_1")], map := none }
     "class" "button__class_1" (by decide) (by decide)⟩

/-- C5: for every class in the compiled class map, the default-export object is
given an entry under the kebab-case form of the original identifier bound to
the scoped name, and (when compilation succeeds) the emitted named-export
statements contain the camelCase named export bound to the same scoped name. -/
theorem buildCssModulesJs_default_and_named_exports (kebab camel : String → String)
    (fullPath : String) (ex : List (String × String)) (ls : List String) (n v : String)
    (hmem : (n, v) ∈ cssModulesJSON ex)
    (hok : namedExportLines camel fullPath (cssModulesJSON ex) = Except.ok ls) :
    (kebab n, v) ∈ defaultExportEntries kebab (cssModulesJSON ex) ∧
    (namedExportLine (camel n) v ++ ";") ∈ ls :=
  ⟨List.mem_map.mpr ⟨(n, v), hmem, rfl⟩, namedExportLines_mem camel fullPath hmem hok⟩

/-- C5 witness: the class `fooBar` yields the default-export key `foo-bar` and
the named export `fooBar`, both bound to the scoped name. -/
theorem buildCssModulesJs_default_and_named_exports_witness :
    kebabCaseAscii "fooBar" = "foo-bar" ∧
    camelCaseAscii "fooBar" = "fooBar" ∧
    ("fooBar", "button__fooBar_1") ∈ cssModulesJSON [("fooBar", "button__fooBar_1")] ∧
    namedExportLines camelCaseAscii "/proj/src/button.module.css"
        (cssModulesJSON [("fooBar", "button__fooBar_1")])
      = Except.ok [namedExportLine "fooBar" "button__fooBar_1" ++ ";"] ∧
    ((kebabCaseAscii "fooBar", "button__fooBar_1") ∈
        defaultExportEntries kebabCaseAscii (cssModulesJSON [("fooBar", "button__fooBar_1")]) ∧
      (namedExportLine (camelCaseAscii "fooBar") "button__fooBar_1" ++ ";") ∈
        [namedExportLine "fooBar" "button__fooBar_1" ++ ";"]) := by
  refine ⟨by decide, by decide, by decide, rfl, ?_⟩
  exact buildCssModulesJs_default_and_named_exports kebabCaseAscii camelCaseAscii
    "/proj/src/button.module.css" [("fooBar", "button__fooBar_1")]
    [namedExportLine "fooBar" "button__fooBar_1" ++ ";"] "fooBar" "button__fooBar_1"
    (by decide) rfl

/-- C7: the export map is built by iterating the original identifiers in
lexicographically sorted order, so two transform outputs that enumerate the
same export table in different orders yield the same class-name map and
byte-identical generated JS and CSS text. -/
theorem buildCssModulesJs_deterministic (kebab camel : String → String) (inject : Bool)
    (fullPath buildId originCss code : String) (map : Option String)
    (e1 e2 : List (String × String)) (hperm : e1.Perm e2)
    (hnd : (e1.map Prod.fst).Nodup) :
    cssModulesJSON e1 = cssModulesJSON e2 ∧
    (buildCssModulesJs kebab camel inject fullPath buildId originCss
        { code := code, exports := e1, map := map }).map CssModulesJsResult.js
      = (buildCssModulesJs kebab camel inject fullPath buildId originCss
        { code := code, exports := e2, map := map }).map CssModulesJsResult.js ∧
    (buildCssModulesJs kebab camel inject fullPath buildId originCss
        { code := code, exports := e1, map := map }).map CssModulesJsResult.css
      = (buildCssModulesJs kebab camel inject fullPath buildId originCss
        { code := code, exports := e2, map := map }).map CssModulesJsResult.css := by
  have hjson := cssModulesJSON_perm hperm hnd
  refine ⟨hjson, ?_, ?_⟩ <;>
  · simp only [buildCssModulesJs]
    rw [hjson]
    cases hnl : namedExportLines camel fullPath (cssModulesJSON e2) <;>
      simp [Except.map]

/-- C7 witness: two enumeration orders of the same two-class export table give
identical maps and identical generated text. -/
theorem buildCssModulesJs_deterministic_witness :
    ([("beta", "s_b"), ("alpha", "s_a")] : List (String × String)).Perm
        [("alpha", "s_a"), ("beta", "s_b")] ∧
    (([("beta", "s_b"), ("alpha", "s_a")] : List (String × String)).map Prod.fst).Nodup ∧
    (cssModulesJSON [("beta", "s_b"), ("alpha", "s_a")]
        = cssModulesJSON [("alpha", "s_a"), ("beta", "s_b")] ∧
      (buildCssModulesJs kebabCaseAscii camelCaseAscii false "/proj/src/a.module.css" "bid" "o"
          { code := "code", exports := [("beta", "s_b"), ("alpha", "s_a")], map := none }).map
          CssModulesJsResult.js
        = (buildCssModulesJs kebabCaseAscii camelCaseAscii false "/proj/src/a.module.css" "bid"
          "o" { code := "code", exports := [("alpha", "s_a"), ("beta", "s_b")], map := none }).map
          CssModulesJsResult.js ∧
      (buildCssModulesJs kebabCaseAscii camelCaseAscii false "/proj/src/a.module.css" "bid" "o"
          { code := "code", exports := [("beta", "s_b"), ("alpha", "s_a")], map := none }).map
          CssModulesJsResult.css
        = (buildCssModulesJs kebabCaseAscii camelCaseAscii false "/proj/src/a.module.css" "bid"
          "o" { code := "code", exports := [("alpha", "s_a"), ("beta", "s_b")], map := none }).map
          CssModulesJsResult.css) :=
  ⟨List.Perm.swap ("alpha", "s_a") ("beta", "s_b") [], by decide,
   buildCssModulesJs_deterministic kebabCaseAscii camelCaseAscii false "/proj/src/a.module.css"
     "bid" "o" "code" none [("beta", "s_b"), ("alpha", "s_a")] [("alpha", "s_a"), ("beta", "s_b")]
     (List.Perm.swap ("alpha", "s_a") ("beta", "s_b") []) (by decide)⟩

/-- C6: on any two fresh (compiling) loads that share the same build-root
relative path, the digest attached to the load result is the sliced hex SHA-256
of that relative path — identical whatever the absolute path, filesystem or
cache state — and, the hex digest being 64 characters, the slice keeps the
whole (trivially truncated) hex string, of which the digest is a suffix. -/
theorem onLoad_digest_from_relative_path (sha256hex hash1 hash2 : String → String)
    (compile1 compile2 : String → String → Except String CssModulesJsResult)
    (fs1 fs2 : String → String) (c1 c2 : CacheMap) (absPath1 absPath2 rpath : String)
    (r1 r2 : LoadResult)
    (h1 : (onLoadModulesCss sha256hex hash1 compile1 false fs1 c1 absPath1 rpath).result
      = Except.ok r1)
    (h2 : (onLoadModulesCss sha256hex hash2 compile2 false fs2 c2 absPath2 rpath).result
      = Except.ok r2)
    (hlen : (sha256hex rpath).length = 64) :
    r1.digest = loadDigest sha256hex rpath ∧
    r2.digest = loadDigest sha256hex rpath ∧
    r1.digest = r2.digest ∧
    (loadDigest sha256hex rpath).toList <:+ (sha256hex rpath).toList ∧
    loadDigest sha256hex rpath = sha256hex rpath := by
  have k1 : r1.digest = loadDigest sha256hex rpath := by
    cases hc : compile1 absPath1 (fs1 absPath1) with
    | error e => simp [onLoadModulesCss, hc] at h1
    | ok out =>
      simp [onLoadModulesCss, hc] at h1
      rw [← h1]
  have k2 : r2.digest = loadDigest sha256hex rpath := by
    cases hc : compile2 absPath2 (fs2 absPath2) with
    | error e => simp [onLoadModulesCss, hc] at h2
    | ok out =>
      simp [onLoadModulesCss, hc] at h2
      rw [← h2]
  exact ⟨k1, k2, by rw [k1, k2], loadDigest_suffix sha256hex rpath,
    loadDigest_of_length_64 sha256hex rpath hlen⟩

/-- C6 witness: two loads of `a.module.css` from different absolute working
directories and filesystems carry the same digest: the full sample hex. -/
theorem onLoad_digest_from_relative_path_witness :
    (onLoadModulesCss sampleSha idHash sampleCompile false fsA [] "/machine1/proj/a.module.css"
        "a.module.css").result
      = Except.ok { contents := "contentA", css := "css", exportsOut := [],
                    digest := loadDigest sampleSha "a.module.css" } ∧
    (onLoadModulesCss sampleSha idHash sampleCompile false fsB [] "/machine2/work/a.module.css"
        "a.module.css").result
      = Except.ok { contents := "contentB", css := "css", exportsOut := [],
                    digest := loadDigest sampleSha "a.module.css" } ∧
    (sampleSha "a.module.css").length = 64 ∧
    ({ contents := "contentA", css := "css", exportsOut := [],
       digest := loadDigest sampleSha "a.module.css" } : LoadResult).digest
        = loadDigest sampleSha "a.module.css" ∧
    ({ contents := "contentB", css := "css", exportsOut := [],
       digest := loadDigest sampleSha "a.module.css" } : LoadResult).digest
        = loadDigest sampleSha "a.module.css" ∧
    ({ contents := "contentA", css := "css", exportsOut := [],
       digest := loadDigest sampleSha "a.module.css" } : LoadResult).digest
        = ({ contents := "contentB", css := "css", exportsOut := [],
             digest := loadDigest sampleSha "a.module.css" } : LoadResult).digest ∧
    (loadDigest sampleSha "a.module.css").toList <:+ (sampleSha "a.module.css").toList ∧
    loadDigest sampleSha "a.module.css" = sampleSha "a.module.css" := by
  refine ⟨rfl, rfl, rfl, ?_⟩
  have h := onLoad_digest_from_relative_path sampleSha idHash idHash sampleCompile sampleCompile
    fsA fsB [] [] "/machine1/proj/a.module.css" "/machine2/work/a.module.css" "a.module.css"
    { contents := "contentA", css := "css", exportsOut := [],
      digest := loadDigest sampleSha "a.module.css" }
    { contents := "contentB", css := "css", exportsOut := [],
      digest := loadDigest sampleSha "a.module.css" }
    rfl rfl rfl
  exact ⟨h.1, h.2.1, h.2.2.1, h.2.2.2.1, h.2.2.2.2⟩

/-- C1: with caching enabled (the watch flag resolves to true), a first load on
a cache miss invokes the compiler once and stores the result; a second load of
the same absolute path with unchanged content returns exactly the cached result
with zero compiler calls; changed content (digest differs) reaches the compiler
again; and with caching disabled (watch resolves to false) the cache is never
consulted (the outcome is the same for any two cache states) nor populated. -/
theorem onLoad_cache_behaviour (sha256hex hash : String → String)
    (compile : String → String → Except String CssModulesJsResult)
    (iw ow iw2 ow2 : Option Bool) (fs fsChanged fsAny : String → String)
    (c0 cA cB : CacheMap) (absPath rpath : String) (out : CssModulesJsResult)
    (huc : useCache iw ow = true) (huc2 : useCache iw2 ow2 = false)
    (hmiss : cacheGet hash fs c0 absPath = none)
    (hok : compile absPath (fs absPath) = Except.ok out)
    (hchanged : hash (fsChanged absPath) ≠ hash (fs absPath)) :
    (onLoadModulesCss sha256hex hash compile (useCache iw ow) fs c0 absPath
        rpath).compilerCalls = 1 ∧
    (onLoadModulesCss sha256hex hash compile (useCache iw ow) fs
        (onLoadModulesCss sha256hex hash compile (useCache iw ow) fs c0 absPath rpath).cache
        absPath rpath).result
      = (onLoadModulesCss sha256hex hash compile (useCache iw ow) fs c0 absPath rpath).result ∧
    (onLoadModulesCss sha256hex hash compile (useCache iw ow) fs
        (onLoadModulesCss sha256hex hash compile (useCache iw ow) fs c0 absPath rpath).cache
        absPath rpath).compilerCalls = 0 ∧
    (onLoadModulesCss sha256hex hash compile (useCache iw ow) fsChanged
        (onLoadModulesCss sha256hex hash compile (useCache iw ow) fs c0 absPath rpath).cache
        absPath rpath).compilerCalls = 1 ∧
    (onLoadModulesCss sha256hex hash compile (useCache iw2 ow2) fsAny cA absPath rpath).cache
      = cA ∧
    (onLoadModulesCss sha256hex hash compile (useCache iw2 ow2) fsAny cA absPath rpath).result
      = (onLoadModulesCss sha256hex hash compile (useCache iw2 ow2) fsAny cB absPath
        rpath).result ∧
    (onLoadModulesCss sha256hex hash compile (useCache iw2 ow2) fsAny cA absPath
        rpath).compilerCalls
      = (onLoadModulesCss sha256hex hash compile (useCache iw2 ow2) fsAny cB absPath
        rpath).compilerCalls := by
  rw [huc, huc2]
  have hfirst : onLoadModulesCss sha256hex hash compile true fs c0 absPath rpath =
      { result := Except.ok { contents := out.js, css := out.css,
                                exportsOut := out.exportsOut,
                                digest := loadDigest sha256hex rpath }
        cache := (absPath,
          { contents := out.js, css := out.css, exportsOut := out.exportsOut,
            digest := loadDigest sha256hex rpath }, hash (fs absPath)) :: c0
        compilerCalls := 1 } := by
    simp [onLoadModulesCss, hmiss, hok, cacheSet]
  refine ⟨?_, ?_, ?_, ?_, ?_, ?_, ?_⟩
  · rw [hfirst]
  · rw [hfirst]
    simp [onLoadModulesCss, cacheGet, assocLookup]
  · rw [hfirst]
    simp [onLoadModulesCss, cacheGet, assocLookup]
  · rw [hfirst]
    cases hc2 : compile absPath (fsChanged absPath) <;>
      simp [onLoadModulesCss, cacheGet, assocLookup, hchanged, hc2]
  · cases hc3 : compile absPath (fsAny absPath) <;> simp [onLoadModulesCss, hc3]
  · cases hc3 : compile absPath (fsAny absPath) <;> simp [onLoadModulesCss, hc3]
  · cases hc3 : compile absPath (fsAny absPath) <;> simp [onLoadModulesCss, hc3]

/-- C1 witness: the cache scenario at a concrete path, with watch on
(`initialOptions.watch = some true`) and off (both watch flags absent). -/
theorem onLoad_cache_behaviour_witness :
    useCache (some true) none = true ∧
    useCache none none = false ∧
    cacheGet idHash fsA [] "/proj/a.module.css" = none ∧
    sampleCompile "/proj/a.module.css" (fsA "/proj/a.module.css")
      = Except.ok { js := "contentA", css := "css", originCss := "contentA",
                    exportsOut := [], resolveDir := "." } ∧
    idHash (fsB "/proj/a.module.css") ≠ idHash (fsA "/proj/a.module.css") ∧
    ((onLoadModulesCss sampleSha idHash sampleCompile (useCache (some true) none) fsA []
        "/proj/a.module.css" "a.module.css").compilerCalls = 1 ∧
    (onLoadModulesCss sampleSha idHash sampleCompile (useCache (some true) none) fsA
        (onLoadModulesCss sampleSha idHash sampleCompile (useCache (some true) none) fsA []
          "/proj/a.module.css" "a.module.css").cache
        "/proj/a.module.css" "a.module.css").result
      = (onLoadModulesCss sampleSha idHash sampleCompile (useCache (some true) none) fsA []
        "/proj/a.module.css" "a.module.css").result ∧
    (onLoadModulesCss sampleSha idHash sampleCompile (useCache (some true) none) fsA
        (onLoadModulesCss sampleSha idHash sampleCompile (useCache (some true) none) fsA []
          "/proj/a.module.css" "a.module.css").cache
        "/proj/a.module.css" "a.module.css").compilerCalls = 0 ∧
    (onLoadModulesCss sampleSha idHash sampleCompile (useCache (some true) none) fsB
        (onLoadModulesCss sampleSha idHash sampleCompile (useCache (some true) none) fsA []
          "/proj/a.module.css" "a.module.css").cache
        "/proj/a.module.css" "a.module.css").compilerCalls = 1 ∧
    (onLoadModulesCss sampleSha idHash sampleCompile (useCache none none) fsC []
        "/proj/a.module.css" "a.module.css").cache = [] ∧
    (onLoadModulesCss sampleSha idHash sampleCompile (useCache none none) fsC []
        "/proj/a.module.css" "a.module.css").result
      = (onLoadModulesCss sampleSha idHash sampleCompile (useCache none none) fsC
        [("/other", { contents := "x", css := "y", exportsOut := [], digest := "z" }, "w")]
        "/proj/a.module.css" "a.module.css").result ∧
    (onLoadModulesCss sampleSha idHash sampleCompile (useCache none none) fsC []
        "/proj/a.module.css" "a.module.css").compilerCalls
      = (onLoadModulesCss sampleSha idHash sampleCompile (useCache none none) fsC
        [("/other", { contents := "x", css := "y", exportsOut := [], digest := "z" }, "w")]
        "/proj/a.module.css" "a.module.css").compilerCalls) := by
  refine ⟨rfl, rfl, rfl, rfl, by decide, ?_⟩
  exact onLoad_cache_behaviour sampleSha idHash sampleCompile (some true) none none none
    fsA fsB fsC [] []
    [("/other", { contents := "x", css := "y", exportsOut := [], digest := "z" }, "w")]
    "/proj/a.module.css" "a.module.css"
    { js := "contentA", css := "css", originCss := "contentA",
      exportsOut := [], resolveDir := "." }
    rfl rfl rfl rfl (by decide)

end CssModulesPlugin
